import Mathlib

/-!
Shallow embedding of the go-conf watch/cache engine (package `conf`).

The Go source is embedded as pure Lean functions: each method's locked
mutation of shared state becomes a function from state to state, goroutine
launches become a ghost `loops` counter, channels and network calls become
explicit inputs/outputs, and `uint64` arithmetic is `Nat` with an explicit
`% 2 ^ 64` where overflow matters.  Nil-pointer dereferences (Go panics)
make the modelled function return `none`.
-/

namespace GoConf

/-- The error values of package `conf` (`NoSuchKeyError`, `ClientError`,
`ServiceError`, `TimeoutError`, `InvalidIndexError`, `ComparisonFailedError`);
their defining file is not under `src/`, but every value is referenced by the
sources and the spec's error taxonomy (spec §7). -/
inductive confError where
  | noSuchKeyError
  | clientError
  | serviceError
  | timeoutError
  | invalidIndexError
  | comparisonFailedError
deriving DecidableEq, Repr

/-- An etcd node, from `src/etcd.go` (`etcdNode`: createdIndex, modifiedIndex,
key, value) together with the directory flag that the watch loop in
`src/unnamed/part_000` consults (`rsp.Node.Directory`; spec §3 Node). -/
structure etcdNode where
  created : Nat
  modified : Nat
  key : String
  value : String
  directory : Bool
deriving DecidableEq, Repr

/-- An etcd response, from `src/etcd.go` (`etcdResponse`): action, node,
previous node.  Pointers become `Option`. -/
structure etcdResponse where
  action : String
  node : Option etcdNode
  previous : Option etcdNode
deriving DecidableEq, Repr

/-- A per-key cache entry, from `src/unnamed/part_000` (`etcdCacheEntry`).
Observers are opaque callbacks; we track them by an identity (`Nat`).
The `finalize` channel is tracked by whether it has been allocated.
`loops` is a ghost field counting the watch goroutines launched by
`startWatching` and still running (the loop body never terminates, see
`watchStep`); it is used to state the single-loop invariant. -/
structure etcdCacheEntry where
  key : String
  response : Option etcdResponse
  watching : Bool
  observers : List Nat
  finalizeAllocated : Bool
  loops : Nat
deriving DecidableEq, Repr

/-- Models `newEtcdCacheEntry` from `src/unnamed/part_000`: fresh entry, not
watching, no observers, `finalize` nil. -/
def newEtcdCacheEntry (key : String) (rsp : Option etcdResponse) : etcdCacheEntry :=
  { key := key, response := rsp, watching := false, observers := [],
    finalizeAllocated := false, loops := 0 }

/-- Models `etcdCacheEntry.Response` (read of the stored response under RLock). -/
def etcdCacheEntry.Response (e : etcdCacheEntry) : Option etcdResponse :=
  e.response

/-- Models `etcdCacheEntry.SetResponse` (replace the stored response under lock). -/
def etcdCacheEntry.SetResponse (e : etcdCacheEntry) (rsp : Option etcdResponse) : etcdCacheEntry :=
  { e with response := rsp }

/-- Models `etcdCacheEntry.startWatching` from `src/unnamed/part_000:192-201`
(caller holds the lock): if not watching, allocate `finalize` if nil, set the
watching flag, and launch the watch goroutine (ghost `loops + 1`). -/
def etcdCacheEntry.startWatching (e : etcdCacheEntry) : etcdCacheEntry :=
  if !e.watching then
    { e with finalizeAllocated := true, watching := true, loops := e.loops + 1 }
  else
    e

/-- Models `etcdCacheEntry.AddObserver` from `src/unnamed/part_000:155-160`: under
the entry lock, append the observer and call `startWatching`. -/
def etcdCacheEntry.AddObserver (e : etcdCacheEntry) (observer : Nat) : etcdCacheEntry :=
  etcdCacheEntry.startWatching { e with observers := e.observers ++ [observer] }

/-- Models `etcdCacheEntry.RemoveAllObservers` from `src/unnamed/part_000:165-169`. -/
def etcdCacheEntry.RemoveAllObservers (e : etcdCacheEntry) : etcdCacheEntry :=
  { e with observers := [] }

/-- Models `etcdCacheEntry.Watch` from `src/unnamed/part_000:183-187`: under the
entry lock, call `startWatching`. -/
def etcdCacheEntry.Watch (e : etcdCacheEntry) : etcdCacheEntry :=
  e.startWatching

/-- Models `etcdCacheEntry.Cancel` from `src/unnamed/part_000:262-269`: under the
entry lock, if watching, send on the unbuffered `finalize` channel and clear
the watching flag.  The send can complete only if another task receives from
`finalize`; the watch loop body (`watch`, part_000:206-257) contains no
receive from `finalize` (see `watchStep`, which models its whole body), and
nothing else receives from it, so the send blocks forever while holding the
entry lock: modelled as `none`.  On a non-watching entry, `Cancel` is a
no-op and returns normally. -/
def etcdCacheEntry.Cancel (e : etcdCacheEntry) : Option etcdCacheEntry :=
  if e.watching then none else some e

/-- Errors a watch-loop fetch (`c.get`) can produce, as compared by the loop
in `src/unnamed/part_000:220`: `io.EOF`, `io.ErrUnexpectedEOF`, the package
error values, or any other error (transport, JSON decode, ...). -/
inductive watchErr where
  | ioEOF
  | ioErrUnexpectedEOF
  | conf (e : confError)
  | other (msg : String)
deriving DecidableEq, Repr

/-- The duration `time.Second` in nanoseconds (Go `time.Duration` units). -/
def timeSecond : Nat := 1000000000

/-- The ceiling `maxboff := time.Second * 15` from `src/unnamed/part_000:209`. -/
def maxboff : Nat := timeSecond * 15

/-- The backoff computation from `src/unnamed/part_000:225-226`:
`delay := backoff * time.Duration(errcount*errcount); if delay > maxboff
{ delay = maxboff }`, with `backoff := time.Second`. -/
def backoffDelay (errcount : Nat) : Nat :=
  let delay := timeSecond * (errcount * errcount)
  if delay > maxboff then maxboff else delay

/-- The observable outcome of one iteration of the watch loop body:
the entry afterwards, the `errcount` afterwards, the backoff sleep performed
(ns), the snapshot of observers dispatched to and the value they receive,
and whether the iteration terminates the loop. -/
structure watchStepResult where
  entry : etcdCacheEntry
  errcount : Nat
  delay : Option Nat
  notifySnapshot : List Nat
  notifyValue : Option String
  terminated : Bool
deriving DecidableEq, Repr

/-- One iteration of `etcdCacheEntry.watch` from `src/unnamed/part_000:206-257`.
`fetch` is the result of the long-poll `c.get(key, true, recurse, rsp, 0)`;
`decodeValue` is the `rsp.Node.Value()` decoding method.  Branches:
`io.EOF`/`io.ErrUnexpectedEOF`/`TimeoutError` reset `errcount` and continue
immediately; any other error increments `errcount`, sleeps the capped
backoff, and continues; on success the response is stored and the observer
list snapshotted under the lock, then the value decoded — a decode failure
logs and continues without notifying, otherwise every snapshotted observer
is invoked.  A successful fetch whose node is nil makes `rsp.Node.Value()`
dereference nil (Go panic): `none`.  No branch exits the loop, and no branch
receives from `finalize`. -/
def etcdCacheEntry.watchStep (e : etcdCacheEntry) (errcount : Nat)
    (fetch : Except watchErr etcdResponse)
    (decodeValue : etcdNode → Except String String) : Option watchStepResult :=
  match fetch with
  | .error err =>
    if err = .ioEOF ∨ err = .ioErrUnexpectedEOF ∨ err = .conf .timeoutError then
      some { entry := e, errcount := 0, delay := none, notifySnapshot := [],
             notifyValue := none, terminated := false }
    else
      some { entry := e, errcount := errcount + 1,
             delay := some (backoffDelay (errcount + 1)), notifySnapshot := [],
             notifyValue := none, terminated := false }
  | .ok rsp =>
    let e' := { e with response := some rsp }
    match rsp.node with
    | none => none
    | some node =>
      match decodeValue node with
      | .error _ =>
        some { entry := e', errcount := 0, delay := none, notifySnapshot := [],
               notifyValue := none, terminated := false }
      | .ok val =>
        some { entry := e', errcount := 0, delay := none,
               notifySnapshot := e.observers, notifyValue := some val,
               terminated := false }

/-- The pair of `errcount` and the last backoff sleep after `n` consecutive iterations of
the watch loop that all fail with the same error `err`, starting from
`errcount = 0` (iterating `watchStep`). -/
def watchConsecutiveFailures (e : etcdCacheEntry)
    (decodeValue : etcdNode → Except String String) (err : watchErr) :
    Nat → Nat × Option Nat
  | 0 => (0, none)
  | k + 1 =>
    match e.watchStep (watchConsecutiveFailures e decodeValue err k).1 (.error err) decodeValue with
    | some r => (r.errcount, r.delay)
    | none => ((watchConsecutiveFailures e decodeValue err k).1, none)

/-- The key→entry registry, from `src/unnamed/part_000` (`etcdCache`); the
Go map is an association list with unique keys. -/
structure etcdCache where
  props : List (String × etcdCacheEntry)
deriving DecidableEq, Repr

/-- Go map indexing `c.props[key]`. -/
def lookupEntry (key : String) : List (String × etcdCacheEntry) → Option etcdCacheEntry
  | [] => none
  | (k, e) :: rest => if key = k then some e else lookupEntry key rest

/-- Models `etcdCache.Get` from `src/unnamed/part_000:290-299` (and the identical
`src/etcd.go:211-220`): look the entry up under RLock and return
`(e.Response(), true)`, or `(nil, false)` on a miss. -/
def etcdCache.Get (c : etcdCache) (key : String) : Option etcdResponse × Bool :=
  match lookupEntry key c.props with
  | some e => (e.Response, true)
  | none => (none, false)

/-- Replace the entry stored at `key` by `f` of it (Go entries are pointers,
so mutating a looked-up entry updates the map in place). -/
def etcdCache.updateAt (c : etcdCache) (key : String) (f : etcdCacheEntry → etcdCacheEntry) : etcdCache :=
  { props := c.props.map fun kv => if kv.1 = key then (kv.1, f kv.2) else kv }

/-- Models `etcdCache.set` from `src/unnamed/part_000:327-336` (no sync): if an
entry exists, `SetResponse` on it; otherwise create and insert a fresh
entry holding the response. -/
def etcdCache.set (c : etcdCache) (key : String) (rsp : Option etcdResponse) : etcdCache :=
  if (lookupEntry key c.props).isSome then
    c.updateAt key (fun e => e.SetResponse rsp)
  else
    { props := c.props ++ [(key, newEtcdCacheEntry key rsp)] }

/-- Models `etcdCache.Set` from `src/unnamed/part_000:318-322`: `set` under the
registry lock. -/
def etcdCache.Set (c : etcdCache) (key : String) (rsp : Option etcdResponse) : etcdCache :=
  c.set key rsp

/-- Models `etcdCache.SetAndWatch` from `src/unnamed/part_000:341-346` (same shape
as `src/etcd.go:234-246`): under the registry lock, `set` the response and
then `Watch` the (existing or just created) entry. -/
def etcdCache.SetAndWatch (c : etcdCache) (key : String) (rsp : Option etcdResponse) : etcdCache :=
  (c.set key rsp).updateAt key etcdCacheEntry.Watch

/-- Models `etcdCache.AddObserver` from `src/unnamed/part_000:351-356`: under the
registry lock, get or create the entry, then `AddObserver` on it. -/
def etcdCache.AddObserver (c : etcdCache) (key : String) (observer : Nat) : etcdCache :=
  if (lookupEntry key c.props).isSome then
    c.updateAt key (fun e => e.AddObserver observer)
  else
    { props := c.props ++ [(key, (newEtcdCacheEntry key none).AddObserver observer)] }

/-- Models `etcdCache.Delete` from `src/unnamed/part_000:361-365`: evict the key. -/
def etcdCache.Delete (c : etcdCache) (key : String) : etcdCache :=
  { props := c.props.filter fun kv => kv.1 ≠ key }

/-- Models `EtcdConfig` from `src/etcd.go:274-277`; the endpoint URL plays no role
in the cached behaviour, so only the cache is carried. -/
structure EtcdConfig where
  cache : etcdCache
deriving DecidableEq, Repr

/-- Models `keyToEtcdPath` from `src/etcd.go:513-525`: split the dotted key and join
the escaped segments with `/`.  `url.QueryEscape` is an external collaborator
and is passed in as `escape`. -/
def keyToEtcdPath (escape : String → String) (key : String) : String :=
  String.intercalate "/" ((key.splitOn ".").map escape)

/-- The URL built by `EtcdConfig.get` in `src/etcd.go:299-309`:
no wait → `/v2/keys/{path}`; wait with a previous response →
`/v2/keys/{path}?wait=true&waitIndex={prev.Node.Modified + 1}` (uint64
addition); wait without one → `/v2/keys/{path}?wait=true`.  When `wait` and
`prev` is non-nil but `prev.Node` is nil, `prev.Node.Modified` dereferences
nil (Go panic): `none`. -/
def etcdGetUrl (escape : String → String) (key : String) (wait : Bool)
    (prev : Option etcdResponse) : Option String :=
  let path := keyToEtcdPath escape key
  if !wait then
    some ("/v2/keys/" ++ path)
  else
    match prev with
    | some p =>
      match p.node with
      | some n =>
        some ("/v2/keys/" ++ path ++ "?wait=true&waitIndex=" ++
              toString ((n.modified + 1) % 2 ^ 64))
      | none => none
    | none => some ("/v2/keys/" ++ path ++ "?wait=true")

/-- The observable outcome of `EtcdConfig.Get`: the returned value or error,
the cache afterwards, and whether a store fetch was performed. -/
structure getOutcome where
  result : Except confError String
  cache : etcdCache
  fetched : Bool

/-- Models `EtcdConfig.Get` from `src/etcd.go:351-369`.  `fetch` is the result the
non-blocking `e.get(key, false, nil)` would produce if performed.  The cache
is consulted first: on a hit with a non-nil response the cached node's value
is returned with no fetch (a nil cached node makes `rsp.Node.Value`
dereference nil: `none`); on a miss or nil cached response the fetch is
performed — errors are returned as-is, a nil fetched node is
`NoSuchKeyError`, and otherwise the response is stored via `SetAndWatch`
and its node's value returned. -/
def EtcdConfig.Get (c : EtcdConfig) (key : String)
    (fetch : Except confError etcdResponse) : Option getOutcome :=
  match c.cache.Get key with
  | (some rsp, true) =>
    match rsp.node with
    | some node => some { result := .ok node.value, cache := c.cache, fetched := false }
    | none => none
  | _ =>
    match fetch with
    | .error err => some { result := .error err, cache := c.cache, fetched := true }
    | .ok rsp =>
      match rsp.node with
      | none => some { result := .error .noSuchKeyError, cache := c.cache, fetched := true }
      | some node =>
        some { result := .ok node.value,
               cache := c.cache.SetAndWatch key (some rsp), fetched := true }

/-- Models `EtcdConfig.Delete` from `src/etcd.go:499-508`.  `deleteResult` is what
the network `e.delete(key)` produced.  An error is returned unchanged; on
success the delete response is stored in the cache with `Set` (not
`SetAndWatch`). -/
def EtcdConfig.Delete (c : EtcdConfig) (key : String)
    (deleteResult : Except confError etcdResponse) : Except confError EtcdConfig :=
  match deleteResult with
  | .error err => .error err
  | .ok rsp => .ok { cache := c.cache.Set key (some rsp) }

/-- The conditional-write request `CompareAndSwap` would put on the wire. -/
inductive casRequest where
  | withPrevIndex (key : String) (value : String) (prevIndex : Nat)
  | createOnly (key : String) (value : String)
deriving DecidableEq, Repr

/-- Modelled from the spec: `EtcdConfig.CompareAndSwap` is not present under
`src/` (only its caller `TestEtcdBasics` in `src/unnamed/part_001:83-96`
is).  Per spec §4.5: `expectedIndex == 0` is rejected locally as
`InvalidIndexError` before any network call; `expectedIndex > 0` issues a
write conditional on `prevIndex = expectedIndex`; `expectedIndex < 0` issues
a create-only write (`prevExist=false`).  The result is either the local
error (no request built) or the single request that would be issued. -/
def EtcdConfig.CompareAndSwap (key : String) (value : String)
    (expectedIndex : Int) : Except confError casRequest :=
  if expectedIndex = 0 then
    .error .invalidIndexError
  else if expectedIndex > 0 then
    .ok (.withPrevIndex key value expectedIndex.toNat)
  else
    .ok (.createOnly key value)

/-- Models `ConfigSuite.Get` from `src/suite.go:52-64`, over the `Config` interface
(`Get(key)`): try each configuration in priority order; a success is
returned, `NoSuchKeyError` moves on to the next configuration, any other
error is returned at once; an exhausted (or nil) suite is
`NoSuchKeyError`. -/
def ConfigSuite.Get {α : Type} (suite : List (String → Except confError α))
    (key : String) : Except confError α :=
  match suite with
  | [] => .error .noSuchKeyError
  | c :: rest =>
    match c key with
    | .ok v => .ok v
    | .error e => if e = .noSuchKeyError then ConfigSuite.Get rest key else .error e

/-- Whether a `Config.Get` result is the `NoSuchKeyError` outcome. -/
def isNoSuchKeyResult {α : Type} : Except confError α → Bool
  | .error .noSuchKeyError => true
  | _ => false

/-- Stated from the claim's words, for comparison with `ConfigSuite.Get`:
the first result in priority order that is not `NoSuchKeyError`, defaulting
to `NoSuchKeyError` when every configuration misses (or the suite is
empty). -/
def firstNonMissingResult {α : Type} (suite : List (String → Except confError α))
    (key : String) : Except confError α :=
  ((suite.map fun c => c key).find? fun r => !(isNoSuchKeyResult r)).getD
    (.error .noSuchKeyError)

/-- The two entry-lock-holding registration calls that reach
`startWatching`: `AddObserver` (part_000:155-160) and `Watch`
(part_000:183-187). -/
inductive entryOp where
  | addObs (observer : Nat)
  | watchCall
deriving DecidableEq, Repr

/-- Apply one registration operation to an entry. -/
def applyEntryOp (e : etcdCacheEntry) : entryOp → etcdCacheEntry
  | .addObs o => e.AddObserver o
  | .watchCall => e.Watch

/-- The single-loop invariant: the watching flag says exactly whether one
watch loop is running for the entry. -/
def singleLoopInv (e : etcdCacheEntry) : Prop :=
  (e.watching = true ∧ e.loops = 1) ∨ (e.watching = false ∧ e.loops = 0)

/-- The function `startWatching` preserves the single-loop invariant. -/
theorem startWatching_singleLoopInv (e : etcdCacheEntry) (h : singleLoopInv e) :
    singleLoopInv e.startWatching := by
  rcases h with ⟨hw, hl⟩ | ⟨hw, hl⟩
  · left
    simp [etcdCacheEntry.startWatching, hw, hl]
  · left
    simp [etcdCacheEntry.startWatching, hw, hl]

/-- Any serialized sequence of `AddObserver`/`Watch` calls preserves the
single-loop invariant. -/
theorem foldl_singleLoopInv (ops : List entryOp) (e : etcdCacheEntry)
    (h : singleLoopInv e) : singleLoopInv (ops.foldl applyEntryOp e) := by
  induction ops generalizing e with
  | nil => exact h
  | cons op rest ih =>
    apply ih
    cases op with
    | addObs o =>
      exact startWatching_singleLoopInv _ h
    | watchCall =>
      exact startWatching_singleLoopInv _ h

/-- Sample node held in the cache in the concrete scenarios below. -/
def sampleNode : etcdNode :=
  { created := 1, modified := 2, key := "/test/a/b/c", value := "cached",
    directory := false }

/-- Sample cached response. -/
def sampleResponse : etcdResponse :=
  { action := "get", node := some sampleNode, previous := none }

/-- Sample node as the store would now return it. -/
def freshNode : etcdNode :=
  { created := 1, modified := 3, key := "/test/a/b/c", value := "fresh",
    directory := false }

/-- Sample store response for a fetch. -/
def freshResponse : etcdResponse :=
  { action := "get", node := some freshNode, previous := none }

/-- Sample decoder that succeeds with the node's raw value. -/
def sampleDecode : etcdNode → Except String String :=
  fun n => .ok n.value

/-- Sample decoder that always fails. -/
def failDecode : etcdNode → Except String String :=
  fun _ => .error "decode"

/-- Sample cache entry with a running watch loop and one observer. -/
def sampleEntryWatching : etcdCacheEntry :=
  { key := "test.a.b.c", response := some sampleResponse, watching := true,
    observers := [7], finalizeAllocated := true, loops := 1 }

/-- Sample configuration whose cache holds `sampleEntryWatching`. -/
def c1Config : EtcdConfig :=
  { cache := { props := [("test.a.b.c", sampleEntryWatching)] } }

/-- C1 counterexample: with a cached response for `test.a.b.c` whose value is
`"cached"` while the store would return `"fresh"`, `EtcdConfig.Get` returns
the cached value with `fetched = false` and the cache unchanged — it does
not fetch from the store on every call. -/
theorem EtcdConfig_Get_serves_cache_without_fetch :
    EtcdConfig.Get c1Config "test.a.b.c" (.ok freshResponse) =
      some { result := .ok "cached", cache := c1Config.cache, fetched := false } := rfl

/-- C1 (amended): `EtcdConfig.Get` consults the cache first; on a hit with a
non-nil cached response it returns the cached node's value without any
fetch; only on a cache miss or nil cached response does it perform the
non-blocking fetch, returning fetch errors as-is, mapping a nil fetched node
to `NoSuchKeyError`, and on success refreshing the cache entry for the key
(arming the watch) via `SetAndWatch`. -/
theorem EtcdConfig_Get_cache_first (c : EtcdConfig) (key : String)
    (fetch : Except confError etcdResponse) :
    (∀ rsp node, c.cache.Get key = (some rsp, true) → rsp.node = some node →
      EtcdConfig.Get c key fetch =
        some { result := .ok node.value, cache := c.cache, fetched := false }) ∧
    ((c.cache.Get key).1 = none ∨ (c.cache.Get key).2 = false →
      (∀ err, fetch = .error err →
        EtcdConfig.Get c key fetch =
          some { result := .error err, cache := c.cache, fetched := true }) ∧
      (∀ rsp, fetch = .ok rsp → rsp.node = none →
        EtcdConfig.Get c key fetch =
          some { result := .error .noSuchKeyError, cache := c.cache, fetched := true }) ∧
      (∀ rsp node, fetch = .ok rsp → rsp.node = some node →
        EtcdConfig.Get c key fetch =
          some { result := .ok node.value,
                 cache := c.cache.SetAndWatch key (some rsp), fetched := true })) := by
  constructor
  · intro rsp node hhit hnode
    simp [EtcdConfig.Get, hhit, hnode]
  · intro hmiss
    rcases hG : c.cache.Get key with ⟨o, b⟩
    rw [hG] at hmiss
    have hred : ∀ x : Except confError etcdResponse,
        EtcdConfig.Get c key x =
          (match x with
            | .error err => some { result := .error err, cache := c.cache, fetched := true }
            | .ok rsp =>
              match rsp.node with
              | none => some { result := .error .noSuchKeyError, cache := c.cache, fetched := true }
              | some node =>
                some { result := .ok node.value,
                       cache := c.cache.SetAndWatch key (some rsp), fetched := true }) := by
      intro x
      cases o with
      | none => cases b <;> simp [EtcdConfig.Get, hG]
      | some rsp =>
        cases b with
        | false => simp [EtcdConfig.Get, hG]
        | true => simp at hmiss
    refine ⟨?_, ?_, ?_⟩
    · intro err hf
      subst hf
      simp [hred]
    · intro rsp hf hn
      subst hf
      simp [hred, hn]
    · intro rsp node hf hn
      subst hf
      simp [hred, hn]

/-- C1 witness: on a key absent from the cache, the fetch is performed and
its successful response is stored via `SetAndWatch`. -/
theorem EtcdConfig_Get_cache_first_witness :
    EtcdConfig.Get c1Config "other.key" (.ok freshResponse) =
      some { result := .ok "fresh",
             cache := c1Config.cache.SetAndWatch "other.key" (some freshResponse),
             fetched := true } :=
  ((EtcdConfig_Get_cache_first c1Config "other.key" (.ok freshResponse)).2
    (Or.inl rfl)).2.2 freshResponse freshNode rfl rfl

/-- The benign-branch result of a watch iteration on `sampleEntryWatching`. -/
def c2Result : watchStepResult :=
  { entry := sampleEntryWatching, errcount := 0, delay := none,
    notifySnapshot := [], notifyValue := none, terminated := false }

/-- C2 (code bug): no iteration of the watch loop ever terminates — the loop
body contains no receive from `finalize`, so a pending cancellation signal is
never observed — and `Cancel` on a watching entry blocks forever on the
unbuffered `finalize` send (modelled as `none`), never even reaching the
`watching = false` assignment. -/
theorem watch_never_observes_cancel (e : etcdCacheEntry) (n : Nat)
    (fetch : Except watchErr etcdResponse) (d : etcdNode → Except String String)
    (r : watchStepResult) :
    (e.watchStep n fetch d = some r → r.terminated = false) ∧
    (e.watching = true → e.Cancel = none) := by
  constructor
  · intro h
    cases fetch with
    | error err =>
      by_cases hb : err = .ioEOF ∨ err = .ioErrUnexpectedEOF ∨ err = .conf .timeoutError
      · simp [etcdCacheEntry.watchStep, hb] at h
        subst h
        rfl
      · simp [etcdCacheEntry.watchStep, hb] at h
        subst h
        rfl
    | ok rsp =>
      cases hn : rsp.node with
      | none => simp [etcdCacheEntry.watchStep, hn] at h
      | some node =>
        cases hd : d node with
        | error msg =>
          simp [etcdCacheEntry.watchStep, hn, hd] at h
          subst h
          rfl
        | ok val =>
          simp [etcdCacheEntry.watchStep, hn, hd] at h
          subst h
          rfl
  · intro hw
    simp [etcdCacheEntry.Cancel, hw]

/-- C2 witness: a concrete iteration does not terminate the loop, and
`Cancel` of a concrete watching entry blocks. -/
theorem watch_never_observes_cancel_witness :
    c2Result.terminated = false ∧ sampleEntryWatching.Cancel = none :=
  ⟨(watch_never_observes_cancel sampleEntryWatching 3 (.error .ioEOF) sampleDecode
      c2Result).1 rfl,
   (watch_never_observes_cancel sampleEntryWatching 3 (.error .ioEOF) sampleDecode
      c2Result).2 rfl⟩

/-- C3 counterexample: at `errcount = 3`, a `TimeoutError` fetch result makes
the watch loop reset the counter to 0 and retry with no backoff sleep, where
the claim prescribes incrementing to 4 and sleeping `backoffDelay 4`. -/
theorem watch_timeout_resets_counter :
    (sampleEntryWatching.watchStep 3 (.error (.conf .timeoutError)) sampleDecode).map
        (fun r => (r.errcount, r.delay)) = some (0, none) ∧
      ((0 : Nat), (none : Option Nat)) ≠ (4, some (backoffDelay 4)) :=
  ⟨rfl, by decide⟩

/-- C3 (amended): in the watch loop, `io.EOF`, `io.ErrUnexpectedEOF` and
`TimeoutError` all reset the failure counter and retry immediately with no
sleep; every other error increments the counter and sleeps the capped
backoff `backoffDelay`; a successful fetch (with a decodable node) resets
the counter to zero. -/
theorem watch_error_branches (e : etcdCacheEntry) (n : Nat) (err : watchErr)
    (d : etcdNode → Except String String) :
    ((err = .ioEOF ∨ err = .ioErrUnexpectedEOF ∨ err = .conf .timeoutError) →
      e.watchStep n (.error err) d =
        some { entry := e, errcount := 0, delay := none, notifySnapshot := [],
               notifyValue := none, terminated := false }) ∧
    (err ≠ .ioEOF → err ≠ .ioErrUnexpectedEOF → err ≠ .conf .timeoutError →
      e.watchStep n (.error err) d =
        some { entry := e, errcount := n + 1, delay := some (backoffDelay (n + 1)),
               notifySnapshot := [], notifyValue := none, terminated := false }) ∧
    (∀ rsp node val, rsp.node = some node → d node = .ok val →
      ∃ r, e.watchStep n (.ok rsp) d = some r ∧ r.errcount = 0) := by
  refine ⟨?_, ?_, ?_⟩
  · intro h
    simp [etcdCacheEntry.watchStep, h]
  · intro h1 h2 h3
    simp [etcdCacheEntry.watchStep, h1, h2, h3]
  · intro rsp node val hn hd
    refine ⟨{ entry := { e with response := some rsp }, errcount := 0, delay := none,
              notifySnapshot := e.observers, notifyValue := some val,
              terminated := false }, ?_, rfl⟩
    simp [etcdCacheEntry.watchStep, hn, hd]

/-- C3 witness: a concrete non-benign error at `errcount = 2` increments the
counter to 3 and sleeps `backoffDelay 3`. -/
theorem watch_error_branches_witness :
    sampleEntryWatching.watchStep 2 (.error (.other "boom")) sampleDecode =
      some { entry := sampleEntryWatching, errcount := 3,
             delay := some (backoffDelay 3), notifySnapshot := [],
             notifyValue := none, terminated := false } :=
  (watch_error_branches sampleEntryWatching 2 (.other "boom") sampleDecode).2.1
    (by decide) (by decide) (by decide)

/-- The failure counter reads N after N consecutive non-benign failures. -/
theorem watchConsecutiveFailures_fst (e : etcdCacheEntry)
    (d : etcdNode → Except String String) (err : watchErr)
    (h1 : err ≠ .ioEOF) (h2 : err ≠ .ioErrUnexpectedEOF)
    (h3 : err ≠ .conf .timeoutError) (N : Nat) :
    (watchConsecutiveFailures e d err N).1 = N := by
  induction N with
  | zero => rfl
  | succ k ih =>
    simp [watchConsecutiveFailures, etcdCacheEntry.watchStep, h1, h2, h3, ih]

/-- The source's capped backoff equals the spec's closed form
`min(n², 15)` seconds. -/
theorem backoffDelay_eq_min (n : Nat) :
    backoffDelay n = min (n * n) 15 * timeSecond := by
  simp only [backoffDelay, maxboff, timeSecond]
  rcases Nat.le_total (n * n) 15 with hle | hge
  · rw [min_eq_left hle]
    set m := n * n with hm
    split <;> omega
  · rw [min_eq_right hge]
    set m := n * n with hm
    split <;> omega

/-- C4: after N consecutive watch-loop failures (N = 1..6, base 1 second,
cap 15 seconds), the failure counter is N and the computed backoff delay
before the next retry equals `min(N², 15)` seconds. -/
theorem watch_backoff_min_squared_cap (e : etcdCacheEntry)
    (d : etcdNode → Except String String) (err : watchErr)
    (h1 : err ≠ .ioEOF) (h2 : err ≠ .ioErrUnexpectedEOF)
    (h3 : err ≠ .conf .timeoutError) (N : Nat) (hlo : 1 ≤ N) (hhi : N ≤ 6) :
    watchConsecutiveFailures e d err N = (N, some (min (N * N) 15 * timeSecond)) := by
  obtain ⟨k, rfl⟩ : ∃ k, N = k + 1 := ⟨N - 1, by omega⟩
  have hfst := watchConsecutiveFailures_fst e d err h1 h2 h3 k
  simp [watchConsecutiveFailures, etcdCacheEntry.watchStep, h1, h2, h3, hfst,
        backoffDelay_eq_min]

/-- C4 witness: five consecutive failures with a concrete error reach the
cap: the delay is `min(25, 15)` seconds. -/
theorem watch_backoff_min_squared_cap_witness :
    watchConsecutiveFailures sampleEntryWatching sampleDecode (.other "boom") 5 =
      (5, some (min (5 * 5) 15 * timeSecond)) :=
  watch_backoff_min_squared_cap sampleEntryWatching sampleDecode (.other "boom")
    (by decide) (by decide) (by decide) 5 (by decide) (by decide)

/-- C5: a long-poll fetch (`wait = true`) with a last-known response carries
`waitIndex` equal to the last known modification index plus one (the
exclusive wait point), and without one it is an unconditional long-poll with
`wait=true` and no `waitIndex`. -/
theorem get_longpoll_wait_index (escape : String → String) (key : String)
    (p : etcdResponse) (n : etcdNode) (hn : p.node = some n)
    (hof : n.modified + 1 < 2 ^ 64) :
    etcdGetUrl escape key true (some p) =
      some ("/v2/keys/" ++ keyToEtcdPath escape key ++ "?wait=true&waitIndex=" ++
            toString (n.modified + 1)) ∧
    etcdGetUrl escape key true none =
      some ("/v2/keys/" ++ keyToEtcdPath escape key ++ "?wait=true") := by
  constructor
  · simp [etcdGetUrl, hn]
    have hmod : (n.modified + 1) % 18446744073709551616 = n.modified + 1 :=
      Nat.mod_eq_of_lt (by omega)
    rw [hmod]
  · simp [etcdGetUrl]

/-- C5 witness: with last known modification index 2, the long-poll URL waits
at index 3; with no last-known response there is no `waitIndex`. -/
theorem get_longpoll_wait_index_witness :
    etcdGetUrl id "test.a.b.c" true (some sampleResponse) =
      some ("/v2/keys/" ++ keyToEtcdPath id "test.a.b.c" ++ "?wait=true&waitIndex=" ++
            toString (sampleNode.modified + 1)) ∧
    etcdGetUrl id "test.a.b.c" true none =
      some ("/v2/keys/" ++ keyToEtcdPath id "test.a.b.c" ++ "?wait=true") :=
  get_longpoll_wait_index id "test.a.b.c" sampleResponse sampleNode rfl (by decide)

/-- C6: `startWatching` is a no-op on a watching entry; from an idle entry it
sets the watching flag and launches exactly one loop; and any serialized
sequence of `AddObserver`/`Watch` calls starting from an idle entry with no
loop leaves at most one loop running. -/
theorem startWatching_single_loop (e e0 : etcdCacheEntry) (ops : List entryOp) :
    (e.watching = true → e.startWatching = e) ∧
    (e.watching = false →
      e.startWatching.watching = true ∧ e.startWatching.loops = e.loops + 1) ∧
    (e0.watching = false → e0.loops = 0 →
      (ops.foldl applyEntryOp e0).loops ≤ 1) := by
  refine ⟨?_, ?_, ?_⟩
  · intro hw
    simp [etcdCacheEntry.startWatching, hw]
  · intro hw
    simp [etcdCacheEntry.startWatching, hw]
  · intro hw hl
    rcases foldl_singleLoopInv ops e0 (Or.inr ⟨hw, hl⟩) with ⟨_, hh⟩ | ⟨_, hh⟩ <;>
      simp [hh]

/-- C6 witness: a fresh entry after `Watch`, `AddObserver`, `Watch` runs at
most one loop. -/
theorem startWatching_single_loop_witness :
    (List.foldl applyEntryOp (newEtcdCacheEntry "test.a.b.c" none)
      [.watchCall, .addObs 1, .watchCall]).loops ≤ 1 :=
  (startWatching_single_loop (newEtcdCacheEntry "test.a.b.c" none)
    (newEtcdCacheEntry "test.a.b.c" none)
    [.watchCall, .addObs 1, .watchCall]).2.2 rfl rfl

/-- C7: `CompareAndSwap` with `expectedIndex = 0` is rejected locally as
`InvalidIndexError`; the error result carries no request, so nothing reaches
the wire. -/
theorem compareAndSwap_zero_index_rejected (key value : String) :
    EtcdConfig.CompareAndSwap key value 0 = .error .invalidIndexError := rfl

/-- C8: when decoding the fetched node's value fails, the watch loop still
stores the fetched response as the entry's last-known response (all other
entry fields unchanged), dispatches to no observer, and continues to the
next iteration rather than terminating. -/
theorem watch_decode_failure_keeps_response (e : etcdCacheEntry) (n : Nat)
    (d : etcdNode → Except String String) (rsp : etcdResponse) (node : etcdNode)
    (msg : String) (hn : rsp.node = some node) (hd : d node = .error msg) :
    e.watchStep n (.ok rsp) d =
      some { entry := { e with response := some rsp }, errcount := 0, delay := none,
             notifySnapshot := [], notifyValue := none, terminated := false } := by
  simp [etcdCacheEntry.watchStep, hn, hd]

/-- C8 witness: a concrete failing decode stores the fresh response and
notifies nobody. -/
theorem watch_decode_failure_keeps_response_witness :
    sampleEntryWatching.watchStep 0 (.ok freshResponse) failDecode =
      some { entry := { sampleEntryWatching with response := some freshResponse },
             errcount := 0, delay := none, notifySnapshot := [],
             notifyValue := none, terminated := false } :=
  watch_decode_failure_keeps_response sampleEntryWatching 0 failDecode
    freshResponse freshNode "decode" rfl rfl

/-- Looking a key up after updating its entry in place gives the updated
entry. -/
theorem lookup_updateAt (props : List (String × etcdCacheEntry)) (key : String)
    (f : etcdCacheEntry → etcdCacheEntry) :
    lookupEntry key (props.map fun kv => if kv.1 = key then (kv.1, f kv.2) else kv) =
      (lookupEntry key props).map f := by
  induction props with
  | nil => rfl
  | cons kv rest ih =>
    obtain ⟨k, v⟩ := kv
    simp only [List.map_cons]
    by_cases h : k = key
    · subst h
      rw [show (if (k, v).1 = k then ((k, v).1, f (k, v).2) else (k, v)) = (k, f v) from
            if_pos rfl]
      simp [lookupEntry, ih]
    · rw [show (if (k, v).1 = key then ((k, v).1, f (k, v).2) else (k, v)) = (k, v) from
            if_neg h]
      have h' : ¬ key = k := fun hh => h hh.symm
      simp [lookupEntry, h', ih]

/-- C9: when `Delete` succeeds, the cache entry for the key holds the delete
response as its last-known state, and the update re-arms nothing: the
entry's watching flag, observer list and running loop count are unchanged. -/
theorem delete_updates_cache_without_rearm (c : EtcdConfig) (key : String)
    (deleteResult : Except confError etcdResponse) (rsp : etcdResponse)
    (e0 : etcdCacheEntry) (hok : deleteResult = .ok rsp)
    (hent : lookupEntry key c.cache.props = some e0) :
    ∃ c' e1, EtcdConfig.Delete c key deleteResult = .ok c' ∧
      lookupEntry key c'.cache.props = some e1 ∧
      e1.response = some rsp ∧ e1.watching = e0.watching ∧
      e1.observers = e0.observers ∧ e1.loops = e0.loops := by
  subst hok
  refine ⟨_, { e0 with response := some rsp }, rfl, ?_, rfl, rfl, rfl, rfl⟩
  have hl := lookup_updateAt c.cache.props key (fun e => e.SetResponse (some rsp))
  rw [hent] at hl
  simp only [Option.map_some'] at hl
  simp [etcdCache.Set, etcdCache.set, hent, etcdCache.updateAt]
  exact hl

/-- C9 witness: deleting the concretely cached, watched key updates its entry
to the delete response and leaves the watching flag and observers intact. -/
theorem delete_updates_cache_without_rearm_witness :
    ∃ c' e1, EtcdConfig.Delete c1Config "test.a.b.c" (.ok freshResponse) = .ok c' ∧
      lookupEntry "test.a.b.c" c'.cache.props = some e1 ∧
      e1.response = some freshResponse ∧
      e1.watching = sampleEntryWatching.watching ∧
      e1.observers = sampleEntryWatching.observers ∧
      e1.loops = sampleEntryWatching.loops :=
  delete_updates_cache_without_rearm c1Config "test.a.b.c" (.ok freshResponse)
    freshResponse sampleEntryWatching rfl rfl

/-- Evaluating `isNoSuchKeyResult` on an error is deciding whether it is
`NoSuchKeyError`. -/
theorem isNoSuchKeyResult_error {α : Type} (e : confError) :
    isNoSuchKeyResult (Except.error (α := α) e) = (e = .noSuchKeyError : Bool) := by
  cases e <;> rfl

/-- C10: `ConfigSuite.Get` returns the first result in priority order that is
not `NoSuchKeyError` — the first configuration's success, or the first error
other than `NoSuchKeyError` (later configurations unconsulted) — defaulting
to `NoSuchKeyError` when every configuration misses or the suite is empty. -/
theorem suite_get_first_non_missing {α : Type}
    (suite : List (String → Except confError α)) (key : String) :
    ConfigSuite.Get suite key = firstNonMissingResult suite key := by
  induction suite with
  | nil => rfl
  | cons c rest ih =>
    cases hc : c key with
    | ok v =>
      simp [ConfigSuite.Get, firstNonMissingResult, hc, isNoSuchKeyResult,
            List.find?]
    | error e =>
      by_cases he : e = .noSuchKeyError
      · subst he
        simpa [ConfigSuite.Get, firstNonMissingResult, hc, isNoSuchKeyResult,
               List.find?] using ih
      · simp [ConfigSuite.Get, firstNonMissingResult, hc,
              isNoSuchKeyResult_error, he, List.find?]

end GoConf
